import Mathlib

/-!
# Verification of the Git-Automation batch-onboarding tool

Shallow embedding of `src/main.py` (Oneexploit/Git-Automation).  External
systems (the git CLI, the filesystem, the GitHub API) are modelled by an
environment that fixes the result of every external call; the program text
itself is translated function by function.  Emitted external actions are
recorded in an effect trace so that properties about the commands actually
issued can be stated.
-/

namespace GitAutomation

/-- Truthiness of an optional string, as Python evaluates `if s:` for a
value that is either `None` or a `str` (empty string is falsy). -/
def optTruthy : Option String → Bool
  | some s => s ≠ ""
  | none => false

/-- Python `str.lower` on the character sequence (the inputs compared by
the code are ASCII literals such as `y`/`yes`). -/
def pyLower (s : String) : String := ⟨s.data.map Char.toLower⟩

/-- Python `str.upper` on the character sequence (used for the protocol
choice `HTTPS`/`SSH`). -/
def pyUpper (s : String) : String := ⟨s.data.map Char.toUpper⟩

/-- Python `name.startswith('.')`: does the first character exist and
equal the hidden-file marker? -/
def startsWithDot (s : String) : Bool :=
  match s.data with
  | [] => false
  | c :: _ => c == '.'

/-- One observable external action: a git subprocess invocation
(`run_git_cmd`, with its argument list and environment-variable overlay),
or a file written into the project folder. -/
inductive Effect
  | git (args : List String) (envOverlay : List (String × String))
  | writeFile (path content : String)
deriving DecidableEq

/-- A directory entry seen by `Path.iterdir`: its name and whether it is a
directory. -/
structure Entry where
  name : String
  isDir : Bool
deriving DecidableEq

/-- A parent path as the filesystem resolves it: its textual form, whether
it is a directory, and its immediate entries. -/
structure Dir where
  path : String
  isDir : Bool
  entries : List Entry

/-- A remote repository as held by the hosting service: the settings
chosen at creation plus the server-assigned clone URLs and default
branch. -/
structure Repo where
  name : String
  priv : Bool
  auto_init : Bool
  ssh_url : String
  clone_url : String
  default_branch : String
deriving DecidableEq

/-- Behaviour of the GitHub side that the code consumes: whether
authentication succeeds, whether `create_repo`/`edit` API calls succeed,
and the server-assigned attributes of a freshly created repository. -/
structure GitHubEnv where
  authOk : Bool
  createOk : Bool
  editOk : Bool
  sshUrlOf : String → String
  cloneUrlOf : String → String
  serverDefaultBranch : String → String

/-- Results of the external git commands issued while processing one
project, one field per call site of `run_git_cmd`, together with the two
filesystem facts the code reads (`.git` exists, folder empty). -/
structure ProjEnv where
  gitDirExists : Bool
  dirEmpty : Bool
  initOk : Bool
  configNameOk : Bool
  configEmailOk : Bool
  isInsideWorktree : Bool
  headOk : Bool
  addOk : Bool
  checkoutNewOk : Bool
  commitOk : Bool
  checkoutOk : Bool
  checkoutNewElseOk : Bool
  remoteRemoveOk : Bool
  remoteAddOk : Bool
  pushOk : Bool
  createBranchCheckoutOk : Bool
  createBranchPushOk : Bool
  renameMoveOk : Bool
  renameDeleteOk : Bool
  renamePushOk : Bool
  switchOk : Bool
deriving DecidableEq

/-- The optional branch operations (`do_branch_ops` dict of
`ProjectProcessor`): `create`, `rename` and `switch` keys. -/
structure BranchOps where
  create : Option String
  rename : Option (String × String)
  switch : Option String
deriving DecidableEq

/-- The `ProjectProcessor` constructor arguments (run configuration).
`protocol` is stored already upper-cased, as `__init__` does. -/
structure Config where
  git_name : Option String
  git_email : Option String
  protocol : String
  priv : Bool
  default_branch : String
  push_via_token_in_https : Bool
  token : Option String
  hasManager : Bool
  do_branch_ops : BranchOps

/-- State threaded through one project's processing: the effect trace and
the hosting account's repositories. -/
structure PState where
  effects : List Effect
  repos : List Repo

/-- Computation model for `process_project`: state passing with a string
exception channel (Python exceptions carry their message). -/
abbrev M (α : Type) : Type := PState → Except String α × PState

def M.pure {α : Type} (a : α) : M α := fun s => (Except.ok a, s)

def M.bind {α β : Type} (x : M α) (f : α → M β) : M β := fun s =>
  match x s with
  | (Except.ok a, s1) => f a s1
  | (Except.error e, s1) => (Except.error e, s1)

instance : Monad M where
  pure := M.pure
  bind := M.bind

/-- A `try/except` block: run `x`; on an exception run the handler on the
state as the failing computation left it. -/
def M.attempt {α : Type} (x : M α) (h : String → M α) : M α := fun s =>
  match x s with
  | (Except.ok a, s1) => (Except.ok a, s1)
  | (Except.error e, s1) => h e s1

/-- Raising an exception. -/
def M.fail {α : Type} (e : String) : M α := fun s => (Except.error e, s)

/-- Record an external action. -/
def M.emit (eff : Effect) : M Unit := fun s =>
  (Except.ok (), { s with effects := s.effects ++ [eff] })

/-- The message of the `subprocess.CalledProcessError` raised for a failed
command (the concrete Python text also carries the exit status, which the
model leaves abstract). -/
def cmdError (args : List String) : String :=
  "Command " ++ String.intercalate " " args ++ " returned non-zero exit status"

/-- `run_git_cmd(args, cwd, env=...)` with `check=True`: the command runs
(its effect is recorded) and a non-zero exit raises. -/
def run_git_cmd_env (ok : Bool) (args : List String)
    (envOverlay : List (String × String)) : M Unit := fun s =>
  let s1 := { s with effects := s.effects ++ [Effect.git args envOverlay] }
  if ok then (Except.ok (), s1) else (Except.error (cmdError args), s1)

/-- `run_git_cmd(args, cwd)` with `check=True` and no environment
overlay. -/
def run_git_cmd (ok : Bool) (args : List String) : M Unit :=
  run_git_cmd_env ok args []

/-- `run_git_cmd(args, cwd, check=False)`: the command runs but its exit
status is ignored by the caller, so no exception is possible. -/
def run_git_cmd_nocheck (_ok : Bool) (args : List String) : M Unit := fun s =>
  (Except.ok (), { s with effects := s.effects ++ [Effect.git args []] })

/-- `get_subdirectories`: fail with `NotADirectoryError` unless the parent
resolves to a directory, otherwise the names of the immediate
subdirectories, sorted (as `sorted(parent.iterdir())` sorts sibling paths,
i.e. by name) and with hidden entries dropped. -/
def entryLe (a b : Entry) : Prop := a.name ≤ b.name

instance : DecidableRel entryLe := fun a b =>
  inferInstanceAs (Decidable (a.name ≤ b.name))

instance : IsTotal Entry entryLe := ⟨fun a b => le_total a.name b.name⟩

instance : IsTrans Entry entryLe := ⟨fun _ _ _ h1 h2 => le_trans h1 h2⟩

/-- The subdirectory names the scan produces for a directory: sort the
entries, keep the non-hidden directories, take their names. -/
def scanNames (parent : Dir) : List String :=
  ((parent.entries.insertionSort entryLe).filter
    (fun p => p.isDir && !startsWithDot p.name)).map Entry.name

def get_subdirectories (parent : Dir) : Except String (List String) :=
  if !parent.isDir then
    Except.error ("Parent path is not a directory: " ++ parent.path)
  else
    Except.ok (scanNames parent)

/-- `default_initial_branch_name`. -/
def default_initial_branch_name (_repo_name : String) : String := "main"

/-- Result of `GitHubManager.create_repo`: the repository handle returned
to the caller and the account's repositories afterwards. -/
structure GHOk where
  repo : Repo
  repos : List Repo
deriving DecidableEq

/-- `self._user.get_repo(name)`: look the name up among the account's
repositories. -/
def lookupRepo : List Repo → String → Option Repo
  | [], _ => none
  | r :: rs, n => if r.name = n then some r else lookupRepo rs n

/-- `GitHubManager.create_repo`: return the existing repository if the
name is taken; otherwise create it with the requested name, visibility and
`auto_init`, then best-effort edit the default branch (an edit failure is
swallowed). A creation failure raises `RuntimeError`. -/
def create_repo (gh : GitHubEnv) (repos : List Repo) (name : String)
    (priv : Bool) (auto_init : Bool) (default_branch : Option String) :
    Except String GHOk :=
  match lookupRepo repos name with
  | some r => Except.ok ⟨r, repos⟩
  | none =>
    if gh.createOk then
      let created : Repo :=
        ⟨name, priv, auto_init, gh.sshUrlOf name, gh.cloneUrlOf name,
          gh.serverDefaultBranch name⟩
      let doEdit :=
        match default_branch with
        | some db => db ≠ "" && db ≠ created.default_branch
        | none => false
      if doEdit then
        if gh.editOk then
          let edited := { created with default_branch := default_branch.getD "" }
          Except.ok ⟨edited, repos ++ [edited]⟩
        else Except.ok ⟨created, repos ++ [created]⟩
      else Except.ok ⟨created, repos ++ [created]⟩
    else Except.error ("GitHub create repo failed: " ++ name)

/-- Left-to-right non-overlapping replacement of every occurrence of `pat`
by `rep`, the semantics of Python `str.replace` for a non-empty pattern. -/
def replaceAllAux (pat rep : List Char) : List Char → List Char
  | [] => []
  | c :: cs =>
    if !pat.isEmpty && pat.isPrefixOf (c :: cs) then
      rep ++ replaceAllAux pat rep (cs.drop (pat.length - 1))
    else
      c :: replaceAllAux pat rep cs
termination_by l => l.length
decreasing_by
  · simp only [List.length_drop, List.length_cons]
    omega
  · simp only [List.length_cons]
    omega

/-- Python `s.replace(pat, rep)` for a non-empty `pat`. -/
def pyReplace (s pat rep : String) : String :=
  ⟨replaceAllAux pat.data rep.data s.data⟩

/-- Does `pat` occur as a contiguous substring of `l`? -/
def hasSubstr (pat : List Char) : List Char → Bool
  | [] => pat.isEmpty
  | c :: cs => pat.isPrefixOf (c :: cs) || hasSubstr pat cs

/-- Lines 242-251 of `process_project`: pick the clone URL matching the
configured protocol, and embed the token into an HTTPS URL when the
token-embedding flag is set and a token is present. -/
def chooseRemoteUrl (protocol : String) (embed : Bool) (token : Option String)
    (repo : Repo) : String :=
  let url := if protocol = "SSH" then repo.ssh_url else repo.clone_url
  if protocol = "HTTPS" && embed && optTruthy token then
    pyReplace url "https://" ("https://" ++ (token.getD "") ++ "@")
  else url

/-- Step 1 of `process_project`: `git init` when `.git` is absent. -/
def initStep (env : ProjEnv) : M Unit :=
  if !env.gitDirExists then run_git_cmd env.initOk ["git", "init"]
  else M.pure ()

/-- Step 2: set the repo-local committer identity when provided. -/
def configStep (cfg : Config) (env : ProjEnv) : M Unit := do
  if optTruthy cfg.git_name then
    run_git_cmd env.configNameOk
      ["git", "config", "user.name", cfg.git_name.getD ""]
  if optTruthy cfg.git_email then
    run_git_cmd env.configEmailOk
      ["git", "config", "user.email", cfg.git_email.getD ""]

/-- `ProjectProcessor._has_commits`: probe with two `rev-parse` calls; a
command failure is caught and answered with `False`. -/
def hasCommitsCheck (env : ProjEnv) : M Bool := do
  M.emit (Effect.git ["git", "rev-parse", "--is-inside-work-tree"] [])
  if env.isInsideWorktree then do
    M.emit (Effect.git ["git", "rev-parse", "HEAD"] [])
    M.pure env.headOk
  else
    M.pure false

/-- The placeholder README synthesized for an empty folder. -/
def readmeText (pname : String) : String :=
  "# " ++ pname ++ "\n\nInitial commit by git-automation CLI\n"

/-- Lines 218-230: make the initial commit when the repository has none.
An empty folder first gets a placeholder README; a failure of the
add/checkout/commit block is caught and only logged. -/
def makeInitialCommit (pname branch_name : String) (env : ProjEnv) : M Unit := do
  if env.dirEmpty then
    M.emit (Effect.writeFile "README.md" (readmeText pname))
  M.attempt
    (do
      run_git_cmd env.addOk ["git", "add", "-A"]
      run_git_cmd env.checkoutNewOk ["git", "checkout", "-b", branch_name]
      run_git_cmd env.commitOk ["git", "commit", "-m", "Initial commit"])
    (fun _ => M.pure ())

/-- Lines 232-236: with commits present, switch to the chosen branch and
create it when the plain checkout fails (a failure of the fallback
propagates). -/
def switchToBranch (branch_name : String) (env : ProjEnv) : M Unit :=
  M.attempt (run_git_cmd env.checkoutOk ["git", "checkout", branch_name])
    (fun _ => run_git_cmd env.checkoutNewElseOk
      ["git", "checkout", "-b", branch_name])

/-- Lines 241-246 inside step 4: call `create_repo` through the manager,
threading the hosting account state; an API failure raises. -/
def createRepoStep (gh : GitHubEnv) (cfg : Config) (pname branch_name : String) :
    M Repo := fun s =>
  match create_repo gh s.repos pname cfg.priv false (some branch_name) with
  | Except.ok res => (Except.ok res.repo, { s with repos := res.repos })
  | Except.error m => (Except.error m, s)

/-- Lines 253-260: drop any pre-existing `origin` remote (its failure is
ignored, the call passes `check=False`) and add the freshly chosen URL. -/
def remoteLinkStep (cfg : Config) (env : ProjEnv) (repo : Repo) : M String := do
  let remote_url :=
    chooseRemoteUrl cfg.protocol cfg.push_via_token_in_https cfg.token repo
  run_git_cmd_nocheck env.remoteRemoveOk ["git", "remote", "remove", "origin"]
  run_git_cmd env.remoteAddOk ["git", "remote", "add", "origin", remote_url]
  M.pure remote_url

/-- Lines 262-272: push the branch upstream; interactive prompting is
disabled for plain HTTPS, and a push failure is re-raised as the fatal
`RuntimeError` for this project. -/
def pushStep (cfg : Config) (pname branch_name : String) (env : ProjEnv) :
    M Unit :=
  let penv :=
    if cfg.protocol = "HTTPS" && !cfg.push_via_token_in_https then
      [("GIT_TERMINAL_PROMPT", "0")]
    else []
  M.attempt
    (run_git_cmd_env env.pushOk ["git", "push", "-u", "origin", branch_name] penv)
    (fun e => M.fail ("Failed to push " ++ pname ++ ": " ++ e))

/-- The `create` block of `_do_branch_operations`. -/
def createOp (ops : BranchOps) (env : ProjEnv) : M Unit :=
  match ops.create with
  | some n =>
    if n ≠ "" then
      M.attempt
        (do
          run_git_cmd env.createBranchCheckoutOk ["git", "checkout", "-b", n]
          run_git_cmd env.createBranchPushOk ["git", "push", "-u", "origin", n])
        (fun _ => M.pure ())
    else M.pure ()
  | none => M.pure ()

/-- The `rename` block of `_do_branch_operations`. -/
def renameOp (ops : BranchOps) (env : ProjEnv) : M Unit :=
  match ops.rename with
  | some (old, nw) =>
    M.attempt
      (do
        run_git_cmd env.renameMoveOk ["git", "branch", "-m", old, nw]
        run_git_cmd env.renameDeleteOk ["git", "push", "origin", ":" ++ old]
        run_git_cmd env.renamePushOk ["git", "push", "-u", "origin", nw])
      (fun _ => M.pure ())
  | none => M.pure ()

/-- The `switch` block of `_do_branch_operations`. -/
def switchOp (ops : BranchOps) (env : ProjEnv) : M Unit :=
  match ops.switch with
  | some n =>
    if n ≠ "" then
      M.attempt (run_git_cmd env.switchOk ["git", "checkout", n])
        (fun _ => M.pure ())
    else M.pure ()
  | none => M.pure ()

/-- `ProjectProcessor._do_branch_operations`: the three blocks in program
order; each catches its own command failures. -/
def do_branch_operations (ops : BranchOps) (env : ProjEnv) : M Unit := do
  createOp ops env
  renameOp ops env
  switchOp ops env

/-- Observable outcome of `ProjectProcessor.process_project` on one
project: the external actions performed, the hosting account afterwards,
and the exception escaping to `process_all` if any. -/
structure ProjResult where
  trace : List Effect
  repos : List Repo
  result : Except String Unit

/-- `ProjectProcessor.process_project`, steps 1-6 in program order. -/
def process_project (cfg : Config) (repos0 : List Repo) (gh : GitHubEnv)
    (pname : String) (env : ProjEnv) : ProjResult :=
  let act : M Unit := do
    initStep env
    configStep cfg env
    let branch_name :=
      if cfg.default_branch = "" then default_initial_branch_name pname
      else cfg.default_branch
    let has_commits ← hasCommitsCheck env
    if !has_commits then
      makeInitialCommit pname branch_name env
    else
      switchToBranch branch_name env
    if cfg.hasManager then do
      let repo ← createRepoStep gh cfg pname branch_name
      let _ ← remoteLinkStep cfg env repo
      pushStep cfg pname branch_name env
    else
      pushStep cfg pname branch_name env
    do_branch_operations cfg.do_branch_ops env
  match act ⟨[], repos0⟩ with
  | (Except.ok _, s) => ⟨s.effects, s.repos, Except.ok ()⟩
  | (Except.error m, s) => ⟨s.effects, s.repos, Except.error m⟩

/-- The summary entry `process_all` records for one project: the success
tuple appended at the end of `process_project`, or the failure tuple built
in the `except` clause of the loop. -/
def mkEntry (r : ProjResult) (pname : String) : String × Bool × String :=
  match r.result with
  | Except.ok _ => (pname, true, "OK")
  | Except.error m => (pname, false, m)

/-- The project loop of `process_all`: each project is processed against
the hosting state its predecessors left, its exception (if any) is caught
at the loop body and recorded, and the loop continues. -/
def runProjects (cfg : Config) (gh : GitHubEnv) (penv : String → ProjEnv) :
    List Repo → List String → List (String × Bool × String) × List Repo
  | repos, [] => ([], repos)
  | repos, p :: ps =>
    let r := process_project cfg repos gh p (penv p)
    let rest := runProjects cfg gh penv (r.repos) ps
    (mkEntry r p :: rest.1, rest.2)

/-- Observable outcome of `ProjectProcessor.process_all`: the summary
list, the hosting account afterwards, and whether `report_summary` ran. -/
structure RunResult where
  summary : List (String × Bool × String)
  repos : List Repo
  reported : Bool
deriving DecidableEq

/-- `ProjectProcessor.process_all`: scan (a `NotADirectoryError`
propagates), short-circuit with a notice when no project was found, else
run fhe loop and print the final report. -/
def process_all (cfg : Config) (gh : GitHubEnv) (repos0 : List Repo)
    (parent : Dir) (penv : String → ProjEnv) : Except String RunResult :=
  match get_subdirectories parent with
  | Except.error e => Except.error e
  | Except.ok [] => Except.ok ⟨[], repos0, false⟩
  | Except.ok (p :: ps) =>
    let r := runProjects cfg gh penv repos0 (p :: ps)
    Except.ok ⟨r.1, r.2, true⟩

/-- The command-line arguments plus the interactive and environment inputs
`main` consumes: the resolved parent path, the token sources, the reply of
`getpass`, and the confirmation line. -/
structure Args where
  parent : Dir
  token : Option String
  token_from_env : Option String
  envLookup : String → Option String
  name : Option String
  email : Option String
  protocol : String
  priv : Bool
  default_branch : String
  https_token : Bool
  create_branch : Option String
  rename_branch : Option (String × String)
  switch_branch : Option String
  yes : Bool
  promptToken : String
  confirmInput : String

/-- The token-obtaining block of `main` (lines 377-396): the literal
token, the named environment variable, or the hidden prompt (disallowed
under `--yes`); `none` means the run exits with status 1. -/
def tokenResolution (a : Args) : Option String :=
  let token : Option String :=
    if optTruthy a.token then a.token
    else if optTruthy a.token_from_env then a.envLookup (a.token_from_env.getD "")
    else if !a.yes then some a.promptToken
    else none
  match token with
  | some t => if t = "" then none else some t
  | none => none

/-- The `branch_ops` dict `main` assembles (lines 406-413). -/
def branchOpsOfArgs (a : Args) : BranchOps :=
  ⟨if optTruthy a.create_branch then a.create_branch else none,
   a.rename_branch,
   if optTruthy a.switch_branch then a.switch_branch else none⟩

/-- The `ProjectProcessor` built by `main` (lines 415-426). -/
def configOfArgs (a : Args) (token : String) : Config :=
  ⟨a.name, a.email, pyUpper a.protocol, a.priv, a.default_branch,
   a.https_token, some token, true, branchOpsOfArgs a⟩

/-- Did the confirmation prompt reject the run (line 435-439)? -/
def declinedConfirm (a : Args) : Bool :=
  !a.yes && !(pyLower a.confirmInput = "y" || pyLower a.confirmInput = "yes")

/-- Observable outcome of the `main` process: its exit status, whether the
final summary was printed, and how many projects were attempted. -/
structure MainOut where
  exitCode : Nat
  summaryPrinted : Bool
  projectsAttempted : Nat
deriving DecidableEq

/-- `main` (lines 370-444): validate the parent path, obtain a token,
authenticate, confirm, then run the processor; a `sys.exit(1)` is a
non-zero exit, the declined confirmation is `sys.exit(0)`, and a normal
return exits with status 0. -/
def main (a : Args) (gh : GitHubEnv) (repos0 : List Repo)
    (penv : String → ProjEnv) : MainOut :=
  if !a.parent.isDir then ⟨1, false, 0⟩
  else
    match tokenResolution a with
    | none => ⟨1, false, 0⟩
    | some token =>
      if !gh.authOk then ⟨1, false, 0⟩
      else
        if declinedConfirm a then ⟨0, false, 0⟩
        else
          match process_all (configOfArgs a token) gh repos0 a.parent penv with
          | Except.error _ => ⟨1, false, 0⟩
          | Except.ok run => ⟨0, run.reported, run.summary.length⟩

/-! ## Characterisation data used by the theorems -/

/-- The commands the initial-commit block issues: `git add -A` always runs,
the branch checkout only after a successful add, the commit only after a
successful checkout (an earlier failure aborts the `try` block). -/
def commitCmdsTrace (branch_name : String) (env : ProjEnv) : List Effect :=
  Effect.git ["git", "add", "-A"] [] ::
    (if env.addOk then
      Effect.git ["git", "checkout", "-b", branch_name] [] ::
        (if env.checkoutNewOk then
          [Effect.git ["git", "commit", "-m", "Initial commit"] []]
        else [])
    else [])

/-- The commands the `create` branch operation issues. -/
def createOpTrace (ops : BranchOps) (env : ProjEnv) : List Effect :=
  match ops.create with
  | some n =>
    if n = "" then []
    else
      Effect.git ["git", "checkout", "-b", n] [] ::
        (if env.createBranchCheckoutOk then
          [Effect.git ["git", "push", "-u", "origin", n] []]
        else [])
  | none => []

/-- The commands the `rename` branch operation issues. -/
def renameOpTrace (ops : BranchOps) (env : ProjEnv) : List Effect :=
  match ops.rename with
  | some (old, nw) =>
    Effect.git ["git", "branch", "-m", old, nw] [] ::
      (if env.renameMoveOk then
        Effect.git ["git", "push", "origin", ":" ++ old] [] ::
          (if env.renameDeleteOk then
            [Effect.git ["git", "push", "-u", "origin", nw] []]
          else [])
      else [])
  | none => []

/-- The commands the `switch` branch operation issues. -/
def switchOpTrace (ops : BranchOps) (env : ProjEnv) : List Effect :=
  match ops.switch with
  | some n => if n = "" then [] else [Effect.git ["git", "checkout", n] []]
  | none => []

/-- The environment overlay the push command receives. -/
def pushEnvOverlay (cfg : Config) : List (String × String) :=
  if cfg.protocol = "HTTPS" && !cfg.push_via_token_in_https then
    [("GIT_TERMINAL_PROMPT", "0")]
  else []

/-- Is an effect a file write? -/
def isWriteFile : Effect → Bool
  | Effect.writeFile _ _ => true
  | Effect.git _ _ => false

/-- Number of files written in a trace. -/
def countWrites (tr : List Effect) : Nat := (tr.filter isWriteFile).length

/-- The configuration failures that abort the run before any project is
touched: invalid parent path, no usable token, failed authentication. -/
def configFatal (a : Args) (gh : GitHubEnv) : Prop :=
  a.parent.isDir = false ∨ tokenResolution a = none ∨ gh.authOk = false

/-! ## Concrete fixtures -/

/-- A project environment where the folder is fresh and empty and every
external command succeeds. -/
def envAllOk : ProjEnv :=
  ⟨false, true, true, true, true, true, true, true, true, true, true,
   true, true, true, true, true, true, true, true, true, true⟩

/-- A hosting side where every API call succeeds. -/
def gh0 : GitHubEnv :=
  ⟨true, true, true,
   fun n => "git@github.com:me/" ++ n ++ ".git",
   fun n => "https://github.com/me/" ++ n ++ ".git",
   fun _ => "master"⟩

/-- A repository handle as the hosting service would return it. -/
def repo0 : Repo :=
  ⟨"p", false, false, "git@github.com:me/p.git",
   "https://github.com/me/p.git", "main"⟩

/-- A typical run configuration: HTTPS, branch `main`, no token
embedding, no branch operations. -/
def cfg0 : Config :=
  ⟨none, none, "HTTPS", false, "main", false, some "tok", true,
   ⟨none, none, none⟩⟩

/-- A parent directory holding the single project folder `p`. -/
def parent0 : Dir := ⟨"/projects", true, [⟨"p", true⟩]⟩

/-- Every project sees the all-success environment. -/
def penv0 : String → ProjEnv := fun _ => envAllOk

/-- A branch-operation request carrying all three operations at once. -/
def opsAll : BranchOps := ⟨some "a", some ("b", "c"), some "d"⟩

/-- Arguments for a run with a literal token where the user answers `n`
at the confirmation prompt. -/
def a0 : Args :=
  ⟨parent0, some "tok", none, fun _ => none, none, none, "HTTPS", false,
   "main", false, none, none, none, false, "", "n"⟩

/-! ## Evaluation lemmas for the computation model -/

@[simp] theorem bind_apply {α β : Type} (x : M α) (f : α → M β) (s : PState) :
    (x >>= f) s =
      match x s with
      | (Except.ok a, s1) => f a s1
      | (Except.error e, s1) => (Except.error e, s1) := rfl

@[simp] theorem pure_apply {α : Type} (a : α) (s : PState) :
    (pure a : M α) s = (Except.ok a, s) := rfl

@[simp] theorem M_pure_apply {α : Type} (a : α) (s : PState) :
    M.pure a s = (Except.ok a, s) := rfl

@[simp] theorem M_fail_apply {α : Type} (e : String) (s : PState) :
    (M.fail e : M α) s = (Except.error e, s) := rfl

@[simp] theorem M_emit_apply (eff : Effect) (s : PState) :
    M.emit eff s = (Except.ok (), ⟨s.effects ++ [eff], s.repos⟩) := rfl

@[simp] theorem M_attempt_apply {α : Type} (x : M α) (h : String → M α) (s : PState) :
    M.attempt x h s =
      match x s with
      | (Except.ok a, s1) => (Except.ok a, s1)
      | (Except.error e, s1) => h e s1 := rfl

@[simp] theorem run_git_cmd_env_apply (ok : Bool) (args : List String)
    (envOverlay : List (String × String)) (s : PState) :
    run_git_cmd_env ok args envOverlay s =
      (if ok then Except.ok () else Except.error (cmdError args),
       ⟨s.effects ++ [Effect.git args envOverlay], s.repos⟩) := by
  cases ok <;> rfl

@[simp] theorem run_git_cmd_apply (ok : Bool) (args : List String) (s : PState) :
    run_git_cmd ok args s =
      (if ok then Except.ok () else Except.error (cmdError args),
       ⟨s.effects ++ [Effect.git args []], s.repos⟩) := by
  cases ok <;> rfl

@[simp] theorem run_git_cmd_nocheck_apply (ok : Bool) (args : List String) (s : PState) :
    run_git_cmd_nocheck ok args s =
      (Except.ok (), ⟨s.effects ++ [Effect.git args []], s.repos⟩) := rfl

/-! ## Behaviour of the individual steps -/

theorem initStep_run (env : ProjEnv) (s : PState) :
    initStep env s =
      (if env.gitDirExists then (Except.ok (), s)
       else
        ((if env.initOk then Except.ok () else Except.error (cmdError ["git", "init"])),
         ⟨s.effects ++ [Effect.git ["git", "init"] []], s.repos⟩)) := by
  cases h : env.gitDirExists <;> cases h2 : env.initOk <;> simp [initStep, h, h2]

theorem hasCommitsCheck_run (env : ProjEnv) (s : PState) :
    hasCommitsCheck env s =
      (Except.ok (env.isInsideWorktree && env.headOk),
       ⟨s.effects ++ [Effect.git ["git", "rev-parse", "--is-inside-work-tree"] []]
          ++ (if env.isInsideWorktree then
                [Effect.git ["git", "rev-parse", "HEAD"] []]
              else []),
        s.repos⟩) := by
  cases h : env.isInsideWorktree <;> simp [hasCommitsCheck, h]

theorem makeInitialCommit_run (pname branch_name : String) (env : ProjEnv) (s : PState) :
    makeInitialCommit pname branch_name env s =
      (Except.ok (),
       ⟨s.effects
          ++ (if env.dirEmpty then [Effect.writeFile "README.md" (readmeText pname)] else [])
          ++ commitCmdsTrace branch_name env,
        s.repos⟩) := by
  cases hd : env.dirEmpty <;> cases ha : env.addOk <;> cases hc : env.checkoutNewOk <;>
    cases hm : env.commitOk <;>
      simp [makeInitialCommit, commitCmdsTrace, hd, ha, hc, hm, M.attempt]

theorem switchToBranch_run (branch_name : String) (env : ProjEnv) (s : PState) :
    switchToBranch branch_name env s =
      ((if env.checkoutOk || env.checkoutNewElseOk then Except.ok ()
        else Except.error (cmdError ["git", "checkout", "-b", branch_name])),
       ⟨s.effects ++ [Effect.git ["git", "checkout", branch_name] []]
          ++ (if env.checkoutOk then []
              else [Effect.git ["git", "checkout", "-b", branch_name] []]),
        s.repos⟩) := by
  cases h1 : env.checkoutOk <;> cases h2 : env.checkoutNewElseOk <;>
    simp [switchToBranch, h1, h2, M.attempt]

theorem remoteLinkStep_run (cfg : Config) (env : ProjEnv) (repo : Repo) (s : PState) :
    remoteLinkStep cfg env repo s =
      ((if env.remoteAddOk then
          Except.ok (chooseRemoteUrl cfg.protocol cfg.push_via_token_in_https cfg.token repo)
        else
          Except.error (cmdError ["git", "remote", "add", "origin",
            chooseRemoteUrl cfg.protocol cfg.push_via_token_in_https cfg.token repo])),
       ⟨s.effects ++ [Effect.git ["git", "remote", "remove", "origin"] [],
          Effect.git ["git", "remote", "add", "origin",
            chooseRemoteUrl cfg.protocol cfg.push_via_token_in_https cfg.token repo] []],
        s.repos⟩) := by
  cases h : env.remoteAddOk <;> simp [remoteLinkStep, h]

theorem pushStep_run (cfg : Config) (pname branch_name : String) (env : ProjEnv)
    (s : PState) :
    pushStep cfg pname branch_name env s =
      ((if env.pushOk then Except.ok ()
        else Except.error ("Failed to push " ++ pname ++ ": "
          ++ cmdError ["git", "push", "-u", "origin", branch_name])),
       ⟨s.effects ++ [Effect.git ["git", "push", "-u", "origin", branch_name]
          (pushEnvOverlay cfg)], s.repos⟩) := by
  cases h : env.pushOk <;> simp [pushStep, pushEnvOverlay, h, M.attempt]

theorem createOp_run (ops : BranchOps) (env : ProjEnv) (s : PState) :
    createOp ops env s =
      (Except.ok (), ⟨s.effects ++ createOpTrace ops env, s.repos⟩) := by
  rcases hc : ops.create with _ | n
  · simp [createOp, createOpTrace, hc]
  · by_cases hn : n = ""
    · simp [createOp, createOpTrace, hc, hn]
    · cases h1 : env.createBranchCheckoutOk <;> cases h2 : env.createBranchPushOk <;>
        simp [createOp, createOpTrace, hc, hn, h1, h2, M.attempt]

theorem renameOp_run (ops : BranchOps) (env : ProjEnv) (s : PState) :
    renameOp ops env s =
      (Except.ok (), ⟨s.effects ++ renameOpTrace ops env, s.repos⟩) := by
  rcases hr : ops.rename with _ | ⟨old, nw⟩
  · simp [renameOp, renameOpTrace, hr]
  · cases h1 : env.renameMoveOk <;> cases h2 : env.renameDeleteOk <;>
      cases h3 : env.renamePushOk <;>
        simp [renameOp, renameOpTrace, hr, h1, h2, h3, M.attempt]

theorem switchOp_run (ops : BranchOps) (env : ProjEnv) (s : PState) :
    switchOp ops env s =
      (Except.ok (), ⟨s.effects ++ switchOpTrace ops env, s.repos⟩) := by
  rcases hs : ops.switch with _ | n
  · simp [switchOp, switchOpTrace, hs]
  · by_cases hn : n = ""
    · simp [switchOp, switchOpTrace, hs, hn]
    · cases h1 : env.switchOk <;>
        simp [switchOp, switchOpTrace, hs, hn, h1, M.attempt]

theorem do_branch_operations_run (ops : BranchOps) (env : ProjEnv) (s : PState) :
    do_branch_operations ops env s =
      (Except.ok (),
       ⟨s.effects ++ createOpTrace ops env ++ renameOpTrace ops env
          ++ switchOpTrace ops env, s.repos⟩) := by
  simp [do_branch_operations, createOp_run, renameOp_run, switchOp_run]

/-! ## Replacement on strings -/

theorem replaceAllAux_no_occurrence (pat rep : List Char) (l : List Char)
    (h : hasSubstr pat l = false) : replaceAllAux pat rep l = l := by
  induction l with
  | nil => simp [replaceAllAux]
  | cons c cs ih =>
    have h2 : pat.isPrefixOf (c :: cs) = false ∧ hasSubstr pat cs = false := by
      simpa [hasSubstr] using h
    simp [replaceAllAux, h2.1, ih h2.2]

theorem replaceAllAux_head (pat rep rest : List Char) (hp : pat ≠ [])
    (hno : hasSubstr pat rest = false) :
    replaceAllAux pat rep (pat ++ rest) = rep ++ rest := by
  cases pat with
  | nil => exact absurd rfl hp
  | cons p ps =>
    have hpre : (p :: ps).isPrefixOf (p :: (ps ++ rest)) = true := by
      simp [List.isPrefixOf_iff_prefix]
    rw [List.cons_append]
    rw [replaceAllAux]
    simp only [List.isEmpty_cons, hpre, Bool.not_false, Bool.and_self, if_true]
    have hdrop : (ps ++ rest).drop ((p :: ps).length - 1) = rest := by
      simp [List.drop_left]
    rw [hdrop, replaceAllAux_no_occurrence (p :: ps) rep rest hno]

theorem pyReplace_head (pat rep rest : String) (hp : pat.data ≠ [])
    (hno : hasSubstr pat.data rest.data = false) :
    pyReplace (pat ++ rest) pat rep = rep ++ rest := by
  apply String.ext
  show replaceAllAux pat.data rep.data (pat ++ rest).data = (rep ++ rest).data
  rw [String.data_append, String.data_append,
    replaceAllAux_head pat.data rep.data rest.data hp hno]

/-! ## The project loop -/

theorem mkEntry_fst (r : ProjResult) (p : String) : (mkEntry r p).1 = p := by
  rcases r with ⟨tr, rs, res⟩
  cases res <;> rfl

theorem mkEntry_shape (r : ProjResult) (p : String) :
    (!(mkEntry r p).2.1 || ((mkEntry r p).2.2 == "OK")) = true := by
  rcases r with ⟨tr, rs, res⟩
  cases res <;> rfl

theorem runProjects_map_fst (cfg : Config) (gh : GitHubEnv) (penv : String → ProjEnv) :
    ∀ (l : List String) (repos : List Repo),
      ((runProjects cfg gh penv repos l).1).map (fun e => e.1) = l := by
  intro l
  induction l with
  | nil => intro repos; rfl
  | cons p ps ih =>
    intro repos
    simp only [runProjects, List.map_cons, ih, mkEntry_fst]

theorem runProjects_entry_shape (cfg : Config) (gh : GitHubEnv)
    (penv : String → ProjEnv) :
    ∀ (l : List String) (repos : List Repo),
      ((runProjects cfg gh penv repos l).1).all
        (fun e => !e.2.1 || (e.2.2 == "OK")) = true := by
  intro l
  induction l with
  | nil => intro repos; rfl
  | cons p ps ih =>
    intro repos
    simp only [runProjects, List.all_cons, ih, Bool.and_true, mkEntry_shape]

theorem countWrites_append (a b : List Effect) :
    countWrites (a ++ b) = countWrites a + countWrites b := by
  simp [countWrites, List.filter_append]

theorem countWrites_commitCmds (branch_name : String) (env : ProjEnv) :
    countWrites (commitCmdsTrace branch_name env) = 0 := by
  cases h1 : env.addOk <;> cases h2 : env.checkoutNewOk <;>
    simp [commitCmdsTrace, countWrites, isWriteFile, h1, h2]

/-! ## Claim theorems -/

/-- C4: when a repository with the requested name already exists under the
account, `create_repo` returns that repository's handle and leaves the
account unchanged; only when the name is free does it create a repository
with the requested name, visibility, and `auto_init=False`. -/
theorem ensure_repository_idempotent (gh : GitHubEnv) (repos : List Repo)
    (name : String) (priv : Bool) (db : Option String) :
    (∀ r, lookupRepo repos name = some r →
      create_repo gh repos name priv false db = Except.ok ⟨r, repos⟩) ∧
    (lookupRepo repos name = none → gh.createOk = true →
      ∃ r1, create_repo gh repos name priv false db = Except.ok ⟨r1, repos ++ [r1]⟩ ∧
        r1.name = name ∧ r1.priv = priv ∧ r1.auto_init = false) := by
  constructor
  · intro r hr
    simp [create_repo, hr]
  · intro hn hc
    simp only [create_repo, hn, hc, if_true]
    split
    · split
      · exact ⟨_, rfl, rfl, rfl, rfl⟩
      · exact ⟨_, rfl, rfl, rfl, rfl⟩
    · exact ⟨_, rfl, rfl, rfl, rfl⟩

theorem ensure_repository_idempotent_witness :
    create_repo gh0 [repo0] "p" false false (some "main") =
      Except.ok ⟨repo0, [repo0]⟩ :=
  (ensure_repository_idempotent gh0 [repo0] "p" false (some "main")).1 repo0 rfl

/-- C5: a parent path that is not a directory makes the scan fail with a
not-a-directory error; a directory yields exactly its immediate non-hidden
child directories, sorted by name; an empty scan makes `process_all` return
with a notice (no report, no error) instead of failing. -/
theorem scan_contract (parent : Dir) (cfg : Config) (gh : GitHubEnv)
    (repos0 : List Repo) (penv : String → ProjEnv) :
    (parent.isDir = false →
      get_subdirectories parent =
        Except.error ("Parent path is not a directory: " ++ parent.path)) ∧
    (parent.isDir = true →
      get_subdirectories parent = Except.ok (scanNames parent) ∧
      (scanNames parent).Sorted (fun a b => a ≤ b) ∧
      (scanNames parent).Perm
        ((parent.entries.filter (fun p => p.isDir && !startsWithDot p.name)).map
          Entry.name)) ∧
    (parent.isDir = true → scanNames parent = [] →
      process_all cfg gh repos0 parent penv = Except.ok ⟨[], repos0, false⟩) := by
  refine ⟨?_, ?_, ?_⟩
  · intro h
    simp [get_subdirectories, h]
  · intro h
    refine ⟨by simp [get_subdirectories, h], ?_, ?_⟩
    · have hs : (parent.entries.insertionSort entryLe).Pairwise entryLe :=
        List.sorted_insertionSort entryLe parent.entries
      have hf : ((parent.entries.insertionSort entryLe).filter
          (fun p => p.isDir && !startsWithDot p.name)).Pairwise entryLe :=
        hs.sublist (List.filter_sublist _)
      exact hf.map Entry.name (fun a b hab => hab)
    · have hp : (parent.entries.insertionSort entryLe).Perm parent.entries :=
        List.perm_insertionSort entryLe parent.entries
      exact (hp.filter _).map Entry.name
  · intro h he
    simp [process_all, get_subdirectories, h, he]

theorem scan_contract_witness :
    get_subdirectories parent0 = Except.ok (scanNames parent0) ∧
    (scanNames parent0).Sorted (fun a b => a ≤ b) ∧
    (scanNames parent0).Perm
      ((parent0.entries.filter (fun p => p.isDir && !startsWithDot p.name)).map
        Entry.name) :=
  (scan_contract parent0 cfg0 gh0 [] penv0).2.1 rfl

/-- C3 counterexample: with a request carrying all three branch operations,
one run of the branch-operation step applies create, rename and switch —
more than one operation is applied. -/
theorem branch_ops_counterexample :
    (do_branch_operations opsAll envAllOk ⟨[], []⟩).2.effects =
      [Effect.git ["git", "checkout", "-b", "a"] [],
       Effect.git ["git", "push", "-u", "origin", "a"] [],
       Effect.git ["git", "branch", "-m", "b", "c"] [],
       Effect.git ["git", "push", "origin", ":b"] [],
       Effect.git ["git", "push", "-u", "origin", "c"] [],
       Effect.git ["git", "checkout", "d"] []] ∧
    ¬ (Effect.git ["git", "checkout", "-b", "a"] []
          ∉ (do_branch_operations opsAll envAllOk ⟨[], []⟩).2.effects ∨
       Effect.git ["git", "branch", "-m", "b", "c"] []
          ∉ (do_branch_operations opsAll envAllOk ⟨[], []⟩).2.effects ∨
       Effect.git ["git", "checkout", "d"] []
          ∉ (do_branch_operations opsAll envAllOk ⟨[], []⟩).2.effects) := by
  constructor
  · rfl
  · decide

/-- C3 amended: the branch-operation step applies every requested
operation, in the fixed order create, rename, switch; each requested
operation issues at least one command, so more than one can be applied in
the same run. -/
theorem branch_ops_all_applied (ops : BranchOps) (env : ProjEnv) (s : PState) :
    do_branch_operations ops env s =
      (Except.ok (),
       ⟨s.effects ++ createOpTrace ops env ++ renameOpTrace ops env
          ++ switchOpTrace ops env, s.repos⟩) ∧
    (optTruthy ops.create = true → createOpTrace ops env ≠ []) ∧
    (ops.rename.isSome = true → renameOpTrace ops env ≠ []) ∧
    (optTruthy ops.switch = true → switchOpTrace ops env ≠ []) := by
  refine ⟨do_branch_operations_run ops env s, ?_, ?_, ?_⟩
  · intro h
    rcases hc : ops.create with _ | n
    · rw [hc] at h
      simp [optTruthy] at h
    · rw [hc] at h
      have hn : n ≠ "" := by simpa [optTruthy] using h
      simp [createOpTrace, hc, hn]
  · intro h
    rcases hr : ops.rename with _ | ⟨old, nw⟩
    · rw [hr] at h
      simp at h
    · simp [renameOpTrace, hr]
  · intro h
    rcases hs : ops.switch with _ | n
    · rw [hs] at h
      simp [optTruthy] at h
    · rw [hs] at h
      have hn : n ≠ "" := by simpa [optTruthy] using h
      simp [switchOpTrace, hs, hn]

theorem branch_ops_all_applied_witness :
    createOpTrace opsAll envAllOk ≠ [] :=
  (branch_ops_all_applied opsAll envAllOk ⟨[], []⟩).2.1 rfl

/-- C6: failure severity depends on the call site: the `remote remove`
result is ignored entirely; the initial-commit block and the
branch-operation blocks never raise; a push failure raises the fatal
per-project error; an early unexpected command failure (here `git init`)
is fatal for the project. -/
theorem command_failure_severity :
    (∀ (cfg : Config) (env : ProjEnv) (repo : Repo) (b1 b2 : Bool),
      remoteLinkStep cfg { env with remoteRemoveOk := b1 } repo =
        remoteLinkStep cfg { env with remoteRemoveOk := b2 } repo) ∧
    (∀ (pname branch_name : String) (env : ProjEnv) (s : PState),
      (makeInitialCommit pname branch_name env s).1 = Except.ok ()) ∧
    (∀ (ops : BranchOps) (env : ProjEnv) (s : PState),
      (do_branch_operations ops env s).1 = Except.ok ()) ∧
    (∀ (cfg : Config) (pname branch_name : String) (env : ProjEnv) (s : PState),
      env.pushOk = false →
      (pushStep cfg pname branch_name env s).1 =
        Except.error ("Failed to push " ++ pname ++ ": "
          ++ cmdError ["git", "push", "-u", "origin", branch_name])) ∧
    (∀ (cfg : Config) (repos0 : List Repo) (gh : GitHubEnv) (pname : String)
        (env : ProjEnv),
      env.gitDirExists = false → env.initOk = false →
      (process_project cfg repos0 gh pname env).result =
        Except.error (cmdError ["git", "init"])) := by
  refine ⟨?_, ?_, ?_, ?_, ?_⟩
  · intro cfg env repo b1 b2
    funext s
    rfl
  · intro pname branch_name env s
    rw [makeInitialCommit_run]
  · intro ops env s
    rw [do_branch_operations_run]
  · intro cfg pname branch_name env s h
    rw [pushStep_run]
    simp [h]
  · intro cfg repos0 gh pname env h1 h2
    simp [process_project, initStep, h1, h2]

theorem command_failure_severity_witness :
    (pushStep cfg0 "p" "main" { envAllOk with pushOk := false } ⟨[], []⟩).1 =
      Except.error ("Failed to push " ++ "p" ++ ": "
        ++ cmdError ["git", "push", "-u", "origin", "main"]) ∧
    (process_project cfg0 [] gh0 "p" { envAllOk with initOk := false }).result =
      Except.error (cmdError ["git", "init"]) :=
  ⟨command_failure_severity.2.2.2.1 cfg0 "p" "main" _ ⟨[], []⟩ rfl,
   command_failure_severity.2.2.2.2 cfg0 [] gh0 "p" _ rfl rfl⟩

/-- C7: the remote URL matches the configured protocol (SSH clone URL for
SSH, HTTPS clone URL for HTTPS); with HTTPS, token embedding requested and
a token present, the token becomes the URL's credential component; and the
remote-link step adds `origin` with exactly that URL, after removing any
old `origin`. -/
theorem remote_url_selection :
    (∀ (embed : Bool) (token : Option String) (repo : Repo),
      chooseRemoteUrl "SSH" embed token repo = repo.ssh_url) ∧
    (∀ (embed : Bool) (token : Option String) (repo : Repo),
      optTruthy token = false →
      chooseRemoteUrl "HTTPS" embed token repo = repo.clone_url) ∧
    (∀ (token : Option String) (repo : Repo),
      chooseRemoteUrl "HTTPS" false token repo = repo.clone_url) ∧
    (∀ (t rest : String) (repo : Repo),
      t ≠ "" → repo.clone_url = "https://" ++ rest →
      hasSubstr "https://".data rest.data = false →
      chooseRemoteUrl "HTTPS" true (some t) repo = "https://" ++ t ++ "@" ++ rest) ∧
    (∀ (cfg : Config) (env : ProjEnv) (repo : Repo) (s : PState),
      (remoteLinkStep cfg env repo s).2.effects =
        s.effects ++ [Effect.git ["git", "remote", "remove", "origin"] [],
          Effect.git ["git", "remote", "add", "origin",
            chooseRemoteUrl cfg.protocol cfg.push_via_token_in_https cfg.token repo] []]) := by
  refine ⟨?_, ?_, ?_, ?_, ?_⟩
  · intro embed token repo
    simp [chooseRemoteUrl]
  · intro embed token repo h
    simp [chooseRemoteUrl, h]
  · intro token repo
    simp [chooseRemoteUrl]
  · intro t rest repo ht hcl hno
    have htr : optTruthy (some t) = true := by simpa [optTruthy] using ht
    have hred : chooseRemoteUrl "HTTPS" true (some t) repo
        = pyReplace repo.clone_url "https://" ("https://" ++ t ++ "@") := by
      simp [chooseRemoteUrl, htr]
    rw [hred, hcl]
    exact pyReplace_head "https://" ("https://" ++ t ++ "@") rest (by decide) hno
  · intro cfg env repo s
    rw [remoteLinkStep_run]

theorem remote_url_selection_witness :
    chooseRemoteUrl "HTTPS" true (some "tok") repo0 =
      "https://" ++ "tok" ++ "@" ++ "github.com/me/p.git" :=
  remote_url_selection.2.2.2.1 "tok" "github.com/me/p.git" repo0
    (by decide) rfl (by decide)

/-- C8: for a project with no commits, an empty folder gets exactly one
placeholder file, written before any of the commit commands; then all
files are staged, the target branch is created with `checkout -b`, and the
commit carries the fixed message `Initial commit`. -/
theorem initial_commit_contract (pname branch_name : String) (env : ProjEnv)
    (s : PState) :
    (env.addOk = true → env.checkoutNewOk = true →
      makeInitialCommit pname branch_name env s =
        (Except.ok (),
         ⟨s.effects
            ++ (if env.dirEmpty then
                  [Effect.writeFile "README.md" (readmeText pname)]
                else [])
            ++ [Effect.git ["git", "add", "-A"] [],
                Effect.git ["git", "checkout", "-b", branch_name] [],
                Effect.git ["git", "commit", "-m", "Initial commit"] []],
          s.repos⟩)) ∧
    countWrites (makeInitialCommit pname branch_name env s).2.effects =
      countWrites s.effects + (if env.dirEmpty then 1 else 0) := by
  constructor
  · intro ha hc
    rw [makeInitialCommit_run]
    simp [commitCmdsTrace, ha, hc]
  · rw [makeInitialCommit_run]
    show countWrites (s.effects ++ _ ++ commitCmdsTrace branch_name env) = _
    rw [countWrites_append, countWrites_append, countWrites_commitCmds]
    cases hd : env.dirEmpty <;> simp [countWrites, isWriteFile]

theorem initial_commit_contract_witness :
    makeInitialCommit "p" "main" envAllOk ⟨[], []⟩ =
      (Except.ok (),
       ⟨([] : List Effect)
          ++ (if envAllOk.dirEmpty then
                [Effect.writeFile "README.md" (readmeText "p")]
              else [])
          ++ [Effect.git ["git", "add", "-A"] [],
              Effect.git ["git", "checkout", "-b", "main"] [],
              Effect.git ["git", "commit", "-m", "Initial commit"] []],
        ([] : List Repo)⟩) :=
  (initial_commit_contract "p" "main" envAllOk ⟨[], []⟩).1 rfl rfl

/-- C1: once processing has begun, a project's exception is caught at the
project boundary and recorded as the failure outcome `(name, false,
reason)`, and every subsequent project in scan order is still attempted —
the summary names all scanned projects in order, whatever each outcome. -/
theorem error_isolation (cfg : Config) (gh : GitHubEnv) (penv : String → ProjEnv)
    (repos0 : List Repo) (parent : Dir) (p : String) (ps : List String)
    (h : get_subdirectories parent = Except.ok (p :: ps)) :
    process_all cfg gh repos0 parent penv =
      Except.ok ⟨mkEntry (process_project cfg repos0 gh p (penv p)) p
          :: (runProjects cfg gh penv (process_project cfg repos0 gh p (penv p)).repos ps).1,
        (runProjects cfg gh penv (process_project cfg repos0 gh p (penv p)).repos ps).2,
        true⟩ ∧
    ((runProjects cfg gh penv repos0 (p :: ps)).1).map (fun e => e.1) = p :: ps ∧
    (∀ m, (process_project cfg repos0 gh p (penv p)).result = Except.error m →
      mkEntry (process_project cfg repos0 gh p (penv p)) p = (p, false, m)) := by
  refine ⟨?_, runProjects_map_fst cfg gh penv (p :: ps) repos0, ?_⟩
  · simp [process_all, h, runProjects]
  · intro m hm
    simp [mkEntry, hm]

theorem error_isolation_witness :
    ((runProjects cfg0 gh0 penv0 [] ["p"]).1).map (fun e => e.1) = ["p"] :=
  (error_isolation cfg0 gh0 penv0 [] parent0 "p" [] rfl).2.1

/-- C10: the final summary holds exactly one entry per scanned project, in
scan order, and each entry is `(name, true, "OK")` or `(name, false,
reason)`; `process_all` reports exactly these entries. -/
theorem summary_invariant (cfg : Config) (gh : GitHubEnv) (penv : String → ProjEnv)
    (repos0 : List Repo) (parent : Dir) (projects : List String)
    (h : get_subdirectories parent = Except.ok projects) :
    ((runProjects cfg gh penv repos0 projects).1).map (fun e => e.1) = projects ∧
    ((runProjects cfg gh penv repos0 projects).1).all
      (fun e => !e.2.1 || (e.2.2 == "OK")) = true ∧
    process_all cfg gh repos0 parent penv =
      Except.ok ⟨(if projects.isEmpty then []
          else (runProjects cfg gh penv repos0 projects).1),
        (if projects.isEmpty then repos0
          else (runProjects cfg gh penv repos0 projects).2),
        !projects.isEmpty⟩ := by
  refine ⟨runProjects_map_fst cfg gh penv projects repos0,
    runProjects_entry_shape cfg gh penv projects repos0, ?_⟩
  cases projects with
  | nil => simp [process_all, h, runProjects]
  | cons p ps => simp [process_all, h]

theorem summary_invariant_witness :
    ((runProjects cfg0 gh0 penv0 [] (scanNames parent0)).1).all
      (fun e => !e.2.1 || (e.2.2 == "OK")) = true :=
  (summary_invariant cfg0 gh0 penv0 [] parent0 (scanNames parent0) rfl).2.1

/-- C9: the access token can influence behaviour only through HTTPS URL
embedding: with SSH protocol, or with the embedding flag unset, two runs of
project processing that differ only in the token value are identical —
same git commands (so the token never appears in a command argument), same
hosting state, same outcome. -/
theorem token_noninterference (gn ge : Option String) (protocol : String)
    (priv : Bool) (db : String) (embed hm : Bool) (ops : BranchOps)
    (t1 t2 : String) (repos0 : List Repo) (gh : GitHubEnv) (pname : String)
    (env : ProjEnv) (h : protocol = "SSH" ∨ embed = false) :
    process_project ⟨gn, ge, protocol, priv, db, embed, some t1, hm, ops⟩
        repos0 gh pname env =
      process_project ⟨gn, ge, protocol, priv, db, embed, some t2, hm, ops⟩
        repos0 gh pname env := by
  have hurl : ∀ r : Repo, chooseRemoteUrl protocol embed (some t1) r
      = chooseRemoteUrl protocol embed (some t2) r := by
    intro r
    rcases h with h | h <;> subst h <;> simp [chooseRemoteUrl]
  simp only [process_project, remoteLinkStep, hurl]
  rfl

theorem token_noninterference_witness :
    process_project ⟨none, none, "HTTPS", false, "main", false, some "secretA",
        true, ⟨none, none, none⟩⟩ [] gh0 "p" envAllOk =
      process_project ⟨none, none, "HTTPS", false, "main", false, some "secretB",
        true, ⟨none, none, none⟩⟩ [] gh0 "p" envAllOk :=
  token_noninterference none none "HTTPS" false "main" false true
    ⟨none, none, none⟩ "secretA" "secretB" [] gh0 "p" envAllOk (Or.inr rfl)

/-- C2 amended: a non-zero exit happens exactly for the three
configuration failures (invalid parent, no usable token, failed
authentication), each before any project is processed; every other run
exits with status zero, but the summary is printed only when the
confirmation was accepted and the scan found at least one project — a
declined confirmation or an empty scan exits zero without a summary. -/
theorem exit_behavior (a : Args) (gh : GitHubEnv) (repos0 : List Repo)
    (penv : String → ProjEnv) :
    (configFatal a gh → main a gh repos0 penv = ⟨1, false, 0⟩) ∧
    (¬ configFatal a gh → declinedConfirm a = true →
      main a gh repos0 penv = ⟨0, false, 0⟩) ∧
    (¬ configFatal a gh → declinedConfirm a = false →
      (main a gh repos0 penv).exitCode = 0 ∧
      ((main a gh repos0 penv).summaryPrinted = true ↔
        (main a gh repos0 penv).projectsAttempted ≠ 0)) := by
  cases hd : a.parent.isDir with
  | false =>
    refine ⟨fun _ => by simp [main, hd], fun hnf _ => absurd (Or.inl hd) hnf,
      fun hnf _ => absurd (Or.inl hd) hnf⟩
  | true =>
    cases htok : tokenResolution a with
    | none =>
      refine ⟨fun _ => by simp [main, hd, htok],
        fun hnf _ => absurd (Or.inr (Or.inl htok)) hnf,
        fun hnf _ => absurd (Or.inr (Or.inl htok)) hnf⟩
    | some t =>
      cases hauth : gh.authOk with
      | false =>
        refine ⟨fun _ => by simp [main, hd, htok, hauth],
          fun hnf _ => absurd (Or.inr (Or.inr hauth)) hnf,
          fun hnf _ => absurd (Or.inr (Or.inr hauth)) hnf⟩
      | true =>
        have hnofatal : ¬ configFatal a gh := by
          simp [configFatal, hd, htok, hauth]
        refine ⟨fun hf => absurd hf hnofatal, fun _ hdec => ?_, fun _ hdec => ?_⟩
        · simp [main, hd, htok, hauth, hdec]
        · have hmain : main a gh repos0 penv =
              match process_all (configOfArgs a t) gh repos0 a.parent penv with
              | Except.error _ => ⟨1, false, 0⟩
              | Except.ok run => ⟨0, run.reported, run.summary.length⟩ := by
            simp [main, hd, htok, hauth, hdec]
          cases hsc : scanNames a.parent with
          | nil =>
            have hpa : process_all (configOfArgs a t) gh repos0 a.parent penv =
                Except.ok ⟨[], repos0, false⟩ := by
              simp [process_all, get_subdirectories, hd, hsc]
            rw [hmain, hpa]
            simp
          | cons p ps =>
            have hpa : process_all (configOfArgs a t) gh repos0 a.parent penv =
                Except.ok ⟨(runProjects (configOfArgs a t) gh penv repos0 (p :: ps)).1,
                  (runProjects (configOfArgs a t) gh penv repos0 (p :: ps)).2,
                  true⟩ := by
              simp [process_all, get_subdirectories, hd, hsc]
            have hlen : ((runProjects (configOfArgs a t) gh penv repos0 (p :: ps)).1).length
                = ps.length + 1 := by
              have h1 := congrArg List.length
                (runProjects_map_fst (configOfArgs a t) gh penv (p :: ps) repos0)
              simpa using h1
            rw [hmain, hpa]
            simp [hlen]

theorem exit_behavior_witness :
    (main { a0 with yes := true } gh0 [] penv0).exitCode = 0 ∧
    ((main { a0 with yes := true } gh0 [] penv0).summaryPrinted = true ↔
      (main { a0 with yes := true } gh0 [] penv0).projectsAttempted ≠ 0) :=
  (exit_behavior { a0 with yes := true } gh0 [] penv0).2.2
    (by simp [configFatal, a0, gh0, parent0, tokenResolution, optTruthy]) rfl

/-- C2 counterexample: with a valid parent, a literal token and successful
authentication — none of the fatal configuration conditions — a run whose
confirmation prompt is answered `n` exits with status zero without
printing the summary, contradicting "exits with status zero after printing
the summary". -/
theorem exit_zero_without_summary :
    ¬ configFatal a0 gh0 ∧ main a0 gh0 [] penv0 = ⟨0, false, 0⟩ := by
  constructor
  · simp [configFatal, a0, gh0, parent0, tokenResolution, optTruthy]
  · rfl

end GitAutomation
